import Mathlib

/-!
Verification development for the three-body-engine workflow core.

This file gives a shallow embedding of the engine's data model and
operations (phase state machine, budget governor, worker lifecycle,
intent resolver, review consensus) translated from the Go source,
together with theorems settling the specification claims.

Modelling conventions:
* Go `float64` fields (budgets, ratios, review scores) are modelled as
  exact rationals `ℚ`.
* The single SQLite database (plus the process-wide worker sequence
  counter) is modelled as an explicit `DB` value threaded through every
  operation; a Go function that commits a transaction returns the new
  `DB`, and a function that fails returns an error and (by `Except`
  semantics) leaves the caller's `DB` unchanged, which models rollback.
* Wall-clock readings (`time.Now()`) are modelled by an explicit `now`
  parameter.
* Go errors are either `*domain.EngineError` values (numeric code plus
  message) or wrapped driver/formatting errors; the sum type `GoError`
  keeps the two apart because several claims are about which of the two
  a caller observes.
-/

namespace ThreeBody

/-- Workflow phases A through G (`domain.Phase`; the Go type is a string
but the engine only uses these seven constants). -/
inductive Phase
  | A | B | C | D | E | F | G
deriving DecidableEq, Repr

/-- String value of a phase, as stored in the database. -/
def Phase.str : Phase → String
  | .A => "A" | .B => "B" | .C => "C" | .D => "D"
  | .E => "E" | .F => "F" | .G => "G"

/-- `domain.FlowStatus`: note `StatusDone` is the string "completed". -/
inductive FlowStatus
  | statusRunning | statusBlocked | statusFailed | statusDone
deriving DecidableEq, Repr

/-- String value of a flow status, as stored in the database. -/
def FlowStatus.str : FlowStatus → String
  | .statusRunning => "running"
  | .statusBlocked => "blocked"
  | .statusFailed  => "failed"
  | .statusDone    => "completed"

/-- `domain.WorkerState`. -/
inductive WorkerState
  | created | running | softTimeout | hardTimeout | replaced | done
deriving DecidableEq, Repr

/-- String value of a worker state, as stored in the database. -/
def WorkerState.str : WorkerState → String
  | .created     => "created"
  | .running     => "running"
  | .softTimeout => "soft_timeout"
  | .hardTimeout => "hard_timeout"
  | .replaced    => "replaced"
  | .done        => "done"

/-- `domain.CostAction`. -/
inductive CostAction
  | costContinue | costWarn | costHalt
deriving DecidableEq, Repr

/-- `domain.EngineError`: stable numeric code plus human message. -/
structure EngineError where
  code : Int
  message : String
deriving DecidableEq, Repr

def errInvalidTransition : EngineError := ⟨-32010, "invalid phase transition"⟩
def errPhaseGateFailed   : EngineError := ⟨-32011, "phase gate evaluation failed"⟩
def errFlowNotFound      : EngineError := ⟨-32012, "workflow not found"⟩
def errFlowAlreadyDone   : EngineError := ⟨-32013, "workflow already completed"⟩
def errOptimisticLock    : EngineError :=
  ⟨-32015, "optimistic lock conflict: state was modified concurrently"⟩
def errGateNotRegistered : EngineError := ⟨-32017, "no gate registered for phase"⟩
def errDuplicateTask     : EngineError := ⟨-32019, "task already exists"⟩
def errWorkerNotFound    : EngineError := ⟨-32040, "worker not found"⟩
def errIntentConflict    : EngineError := ⟨-32042, "intent conflicts with existing intent"⟩
def errIntentNotFound    : EngineError := ⟨-32043, "intent not found"⟩
def errLeaseExpired      : EngineError := ⟨-32045, "intent lease has expired"⟩
def errFileOwnership     : EngineError := ⟨-32046, "file ownership violation"⟩
def errWorkerLimitReached : EngineError :=
  ⟨-32047, "maximum concurrent workers reached"⟩
def errIntentHashMismatch : EngineError :=
  ⟨-32048, "intent pre-hash does not match current file"⟩
def errWorkerAlreadyDone : EngineError :=
  ⟨-32050, "worker is already in terminal state"⟩
def errScoreCardInvalid  : EngineError := ⟨-32160, "score card validation failed"⟩
def errConsensusNoCards  : EngineError :=
  ⟨-32161, "consensus requires at least one score card"⟩

/-- A Go error as observed by a caller: either a `*domain.EngineError`,
or any other error (SQLite driver errors, `fmt.Errorf` wrappings of
them); for the latter only the message is kept. -/
inductive GoError
  | engine (e : EngineError)
  | wrapped (msg : String)
deriving DecidableEq, Repr

/-- True exactly when the observed error is the given `EngineError`
value (Go callers compare with `err == domain.ErrX` or via the code). -/
def GoError.isEngine (e : GoError) (t : EngineError) : Bool :=
  match e with
  | .engine e' => e' == t
  | .wrapped _ => false

/-- `domain.FlowState`. -/
structure FlowState where
  taskID : String
  currentPhase : Phase
  status : FlowStatus
  stateVersion : Int
  round : Int
  budgetUsedUSD : ℚ
  budgetCapUSD : ℚ
  lastEventSeq : Int
  updatedAtUnix : Int
deriving DecidableEq, Repr

/-- `domain.TransitionTrigger` (the unused `Payload` bytes are dropped). -/
structure TransitionTrigger where
  action : String
  actor : String
deriving DecidableEq, Repr

/-- `domain.GateDecision` (the fields the engine never writes are
dropped: `Retryable`, `NextPhase`, `RequireOps` stay zero-valued). -/
structure GateDecision where
  allow : Bool
  blockers : List String
deriving DecidableEq, Repr

/-- `domain.WorkflowEvent` (the autoincrement `ID` column is dropped;
rows are identified by position in the append-only list). -/
structure WorkflowEvent where
  taskID : String
  seqNo : Int
  phase : Phase
  eventType : String
  payloadJSON : String
  createdAt : Int
deriving DecidableEq, Repr

/-- `domain.PhaseSnapshot` (autoincrement `ID` dropped as above). -/
structure PhaseSnapshot where
  taskID : String
  phase : Phase
  round : Int
  snapshotJSON : String
  checksum : String
  createdAt : Int
deriving DecidableEq, Repr

/-- `domain.WorkerSpec` (the unused `DigestPath` is dropped). -/
structure WorkerSpec where
  taskID : String
  phase : Phase
  role : String
  fileOwnership : List String
  softTimeoutSec : Int
  hardTimeoutSec : Int
deriving DecidableEq, Repr

/-- `domain.WorkerRef`. -/
structure WorkerRef where
  workerID : String
  taskID : String
  phase : Phase
  role : String
  state : WorkerState
  fileOwnership : List String
  softTimeoutSec : Int
  hardTimeoutSec : Int
  lastHeartbeat : Int
  createdAtUnix : Int
deriving DecidableEq, Repr

/-- `domain.Intent`. -/
structure Intent where
  intentID : String
  taskID : String
  workerID : String
  targetFile : String
  operation : String
  status : String
  preHash : String
  postHash : String
  payloadHash : String
  leaseUntil : Int
deriving DecidableEq, Repr

/-- `domain.AuditRecord`. -/
structure AuditRecord where
  id : String
  taskID : String
  category : String
  actor : String
  action : String
  requestJSON : String
  decisionJSON : String
  severity : String
  createdAt : Int
deriving DecidableEq, Repr

/-- `domain.Scores`: the five review dimensions (integers 1..5). -/
structure Scores where
  correctness : Int
  security : Int
  maintainability : Int
  cost : Int
  deliveryRisk : Int
deriving DecidableEq, Repr

/-- `domain.Issue` (review finding). -/
structure Issue where
  severity : String
  location : String
  description : String
  suggestion : String
  evidence : String
deriving DecidableEq, Repr

/-- `domain.ScoreCard` (`TaskID`/`CreatedAt` are irrelevant to review
logic and dropped). -/
structure ScoreCard where
  reviewID : String
  reviewer : String
  scores : Scores
  issues : List Issue
  alternatives : List String
  verdict : String
deriving DecidableEq, Repr

/-- `domain.ConsensusResult`. -/
structure ConsensusResult where
  weightedScore : ℚ
  blocking : Bool
  blockReasons : List String
  finalVerdict : String
deriving DecidableEq, Repr

/-- `domain.CostDelta`. -/
structure CostDelta where
  inputTokens : Int
  outputTokens : Int
  amountUSD : ℚ
  provider : String
  phase : String
  createdAt : Int
deriving DecidableEq, Repr

/-- The persistent store (one SQLite file) plus the process-wide worker
sequence counter (`team.workerSeq`). Tables are kept in insertion
order, which is the `created_at`/row order the repositories read back. -/
structure DB where
  tasks : List FlowState
  events : List WorkflowEvent
  snapshots : List PhaseSnapshot
  workers : List WorkerRef
  intents : List Intent
  audits : List AuditRecord
  workerSeq : Int
deriving DecidableEq, Repr

/-- The empty database produced by `store.NewDB` on a fresh file. -/
def DB.empty : DB := ⟨[], [], [], [], [], [], 0⟩

/-! ## Store repositories (`internal/store`) -/

/-- `TaskRepo.CreateTx`: plain INSERT into `tasks`; `task_id` is the
primary key, so a duplicate fails with the driver's unique-constraint
error, wrapped by `fmt.Errorf("create task: %w", err)`. The row is only
visible once the surrounding transaction commits. -/
def TaskRepo.CreateTx (db : DB) (state : FlowState) : Except GoError DB :=
  if db.tasks.any (fun t => t.taskID == state.taskID) then
    .error (.wrapped "create task: UNIQUE constraint failed: tasks.task_id")
  else
    .ok { db with tasks := db.tasks ++ [state] }

/-- The row effect of `TaskRepo.UpdateStateTx`: an optimistic-lock
UPDATE. Every column is set from `state` except `state_version`, which
the SQL increments, and the WHERE clause requires `task_id` and the
expected `state_version`; zero affected rows surfaces
`domain.ErrOptimisticLock`. -/
def updateTaskRows (l : List FlowState) (state : FlowState) : List FlowState :=
  l.map (fun t =>
    if t.taskID == state.taskID && t.stateVersion == state.stateVersion then
      { state with stateVersion := t.stateVersion + 1 }
    else t)

/-- `TaskRepo.UpdateStateTx`, with `updateTaskRows` as the row effect. -/
def TaskRepo.UpdateStateTx (db : DB) (state : FlowState) : Except GoError DB :=
  if db.tasks.any (fun t =>
      t.taskID == state.taskID && t.stateVersion == state.stateVersion) then
    .ok { db with tasks := updateTaskRows db.tasks state }
  else
    .error (.engine errOptimisticLock)

/-- `TaskRepo.GetByID`: SELECT by primary key (`none` models
`sql.ErrNoRows`, which the repository maps to `domain.ErrFlowNotFound`). -/
def TaskRepo.GetByID (db : DB) (taskID : String) : Option FlowState :=
  db.tasks.find? (fun t => t.taskID == taskID)

/-- `EventRepo.AppendTx`: INSERT into `workflow_events`; the
`UNIQUE(task_id, seq_no)` constraint makes a duplicate fail with a
wrapped driver error. -/
def EventRepo.AppendTx (db : DB) (event : WorkflowEvent) : Except GoError DB :=
  if db.events.any (fun e => e.taskID == event.taskID && e.seqNo == event.seqNo) then
    .error (.wrapped "append event: UNIQUE constraint failed: workflow_events.task_id, workflow_events.seq_no")
  else
    .ok { db with events := db.events ++ [event] }

/-- `SnapshotRepo.SaveTx`: unconditional INSERT into `phase_snapshots`. -/
def SnapshotRepo.SaveTx (db : DB) (snap : PhaseSnapshot) : Except GoError DB :=
  .ok { db with snapshots := db.snapshots ++ [snap] }

/-- `WorkerRepo.Create`: INSERT into `workers`. -/
def WorkerRepo.Create (db : DB) (w : WorkerRef) : DB :=
  { db with workers := db.workers ++ [w] }

/-- `WorkerRepo.UpdateState`: UPDATE `state` by `worker_id`; zero
affected rows surfaces `domain.ErrWorkerNotFound`. No terminal-state
check happens at this level. -/
def WorkerRepo.UpdateState (db : DB) (workerID : String) (state : WorkerState) :
    Except GoError DB :=
  if db.workers.any (fun w => w.workerID == workerID) then
    .ok { db with workers := db.workers.map (fun w =>
      if w.workerID == workerID then { w with state := state } else w) }
  else
    .error (.engine errWorkerNotFound)

/-- `WorkerRepo.GetByID` (`none` models `sql.ErrNoRows`, mapped to
`domain.ErrWorkerNotFound` by the repository). -/
def WorkerRepo.GetByID (db : DB) (workerID : String) : Option WorkerRef :=
  db.workers.find? (fun w => w.workerID == workerID)

/-- Whether a worker row is active (`state IN ('created', 'running')`). -/
def workerActive (w : WorkerRef) : Bool :=
  w.state == WorkerState.created || w.state == WorkerState.running

/-- `WorkerRepo.ListActive`: active workers of a task in creation order. -/
def WorkerRepo.ListActive (db : DB) (taskID : String) : List WorkerRef :=
  db.workers.filter (fun w => w.taskID == taskID && workerActive w)

/-- `WorkerRepo.CountActive`. -/
def WorkerRepo.CountActive (db : DB) (taskID : String) : Nat :=
  (db.workers.filter (fun w => w.taskID == taskID && workerActive w)).length

/-- The row effect of `IntentRepo.UpsertTx` on `intent_logs`: INSERT
with `ON CONFLICT(intent_id) DO UPDATE` setting every column from the
excluded row except `intent_id` and `task_id` (note the conflict
clause does not list `task_id`). -/
def upsertIntentRows (l : List Intent) (intent : Intent) : List Intent :=
  if l.any (fun o => o.intentID == intent.intentID) then
    l.map (fun o =>
      if o.intentID == intent.intentID then
        { intent with intentID := o.intentID, taskID := o.taskID }
      else o)
  else l ++ [intent]

/-- `IntentRepo.UpsertTx`, as the row effect above on `intent_logs`. -/
def IntentRepo.UpsertTx (db : DB) (intent : Intent) : DB :=
  { db with intents := upsertIntentRows db.intents intent }

/-- `IntentRepo.MarkDoneTx`: UPDATE setting `status = 'done'` and the
post hash by `intent_id`; zero rows surfaces `domain.ErrIntentNotFound`. -/
def IntentRepo.MarkDoneTx (db : DB) (intentID postHash : String) :
    Except GoError DB :=
  if db.intents.any (fun o => o.intentID == intentID) then
    .ok { db with intents := db.intents.map (fun o =>
      if o.intentID == intentID then
        { o with status := "done", postHash := postHash }
      else o) }
  else
    .error (.engine errIntentNotFound)

/-- Whether an intent row is active, i.e. its status is pending or
running. -/
def intentActive (i : Intent) : Bool :=
  i.status == "pending" || i.status == "running"

/-- Modelled from the spec: `IntentRepo.FindActiveByFile` is called by
`IntentResolver.AcquireLock` but its body is not among the provided
source files. Per the spec, it returns the intents for `(taskID,
file)` whose status is pending or running. -/
def IntentRepo.FindActiveByFile (db : DB) (taskID file : String) : List Intent :=
  db.intents.filter (fun i =>
    i.taskID == taskID && i.targetFile == file && intentActive i)

/-- Modelled from the spec: `IntentRepo.GetByID` is called by
`IntentResolver.Execute`/`ReleaseLock` but its body is not among the
provided source files. Per the spec's intent CRUD, it loads the intent
by its unique `intentID` (`none` models the not-found row, surfaced as
`domain.ErrIntentNotFound`). -/
def IntentRepo.GetByID (db : DB) (intentID : String) : Option Intent :=
  db.intents.find? (fun i => i.intentID == intentID)

/-- `AuditRepo.Record`: INSERT into `audit_records`. Callers ignore its
error, so the model makes it total. -/
def AuditRepo.Record (db : DB) (rec : AuditRecord) : DB :=
  { db with audits := db.audits ++ [rec] }

/-! ## Budget governor (`internal/workflow/cost.go`) -/

/-- `BudgetGovernor`: the persistent fields of the governor (the `DB`
handle is threaded separately). `warnThreshold`/`haltThreshold` are the
source's `WarnRatio`/`HaltRatio` fields. -/
structure BudgetGovernor where
  warnThreshold : ℚ
  haltThreshold : ℚ
deriving DecidableEq, Repr

/-- `NewBudgetGovernor`: standard thresholds 0.8 / 1.0. -/
def NewBudgetGovernor : BudgetGovernor := ⟨4/5, 1⟩

/-- `BudgetGovernor.evaluate(used, cap)`: pure threshold decision. -/
def BudgetGovernor.evaluate (g : BudgetGovernor) (used cap : ℚ) : CostAction :=
  if cap ≤ 0 then CostAction.costContinue
  else
    let ratio := used / cap
    if g.haltThreshold ≤ ratio then CostAction.costHalt
    else if g.warnThreshold ≤ ratio then CostAction.costWarn
    else CostAction.costContinue

/-- `BudgetGovernor.CheckBudget`: pure evaluation of a task state. -/
def BudgetGovernor.CheckBudget (g : BudgetGovernor) (state : FlowState) : CostAction :=
  g.evaluate state.budgetUsedUSD state.budgetCapUSD

/-- `BudgetGovernor.RecordUsage`: load the task, add the delta's amount
to `budgetUsed`, persist under the optimistic lock in one transaction,
and return the resulting action. -/
def BudgetGovernor.RecordUsage (g : BudgetGovernor) (db : DB) (taskID : String)
    (delta : CostDelta) : Except GoError (CostAction × DB) := do
  let some state := TaskRepo.GetByID db taskID
    | .error (.engine errFlowNotFound)
  let state := { state with budgetUsedUSD := state.budgetUsedUSD + delta.amountUSD }
  let db ← TaskRepo.UpdateStateTx db state
  .ok (g.evaluate state.budgetUsedUSD state.budgetCapUSD, db)

/-! ## Phase state machine (`internal/workflow/fsm.go`, gates) -/

/-- `workflow.validTransitions` / `IsValidTransition`: the legal phase
graph A→B→C→D→E→F→G with the D→C rollback and F→E rework back-edges. -/
def IsValidTransition (from_ to_ : Phase) : Bool :=
  match from_, to_ with
  | .A, .B => true
  | .B, .C => true
  | .C, .D => true
  | .D, .E => true
  | .D, .C => true  -- D->C is rollback
  | .E, .F => true
  | .F, .G => true
  | .F, .E => true  -- F->E is rework
  | _, _ => false

/-- `DefaultGate.Evaluate`: allow only if the flow is running and the
budget check is not `halt`. -/
def DefaultGate.Evaluate (gov : BudgetGovernor) (state : FlowState) : GateDecision :=
  if state.status ≠ FlowStatus.statusRunning then
    { allow := false
      blockers := ["flow is not running (status=" ++ state.status.str ++ ")"] }
  else if gov.CheckBudget state == CostAction.costHalt then
    { allow := false, blockers := ["budget limit exceeded"] }
  else
    { allow := true, blockers := [] }

/-- `PhaseGateRegistry.Get` for the registry built by
`NewPhaseGateRegistry`, which installs the default gate for every one
of the seven phases; with `Phase` covering exactly those, the lookup
always succeeds and yields the default gate's decision. -/
def PhaseGateRegistry.Evaluate (gov : BudgetGovernor) (_phase : Phase)
    (state : FlowState) : GateDecision :=
  DefaultGate.Evaluate gov state

/-- `workflow.nextPhaseForward`. -/
def nextPhaseForward (current : Phase) : Except GoError Phase :=
  match current with
  | .A => .ok .B
  | .B => .ok .C
  | .C => .ok .D
  | .D => .ok .E
  | .E => .ok .F
  | .F => .ok .G
  | .G => .error (.engine ⟨errInvalidTransition.code,
      "no forward transition from phase " ++ Phase.str .G⟩)

/-- `workflow.resolveNextPhase`. -/
def resolveNextPhase (current : Phase) (action : String) : Except GoError Phase :=
  if action == "advance" then
    nextPhaseForward current
  else if action == "rollback" then
    if current == Phase.D then .ok .C
    else .error (.engine ⟨errInvalidTransition.code,
      "rollback not allowed from phase " ++ current.str⟩)
  else if action == "rework" then
    if current == Phase.F then .ok .E
    else .error (.engine ⟨errInvalidTransition.code,
      "rework not allowed from phase " ++ current.str⟩)
  else
    .error (.engine ⟨errInvalidTransition.code, "unknown action: " ++ action⟩)

/-- The transition-event payload
`{"from":…,"to":…,"action":…,"actor":…}` built by `Engine.Advance`. -/
def transitionPayload (from_ to_ action actor : String) : String :=
  "\x7b\"from\":\"" ++ from_ ++ "\",\"to\":\"" ++ to_ ++ "\",\"action\":\""
    ++ action ++ "\",\"actor\":\"" ++ actor ++ "\"\x7d"

/-- The snapshot payload `{"from_phase":…,"to_phase":…,"trigger":…}`
built by `Engine.Advance`. -/
def snapshotPayload (from_ to_ trigger : String) : String :=
  "\x7b\"from_phase\":\"" ++ from_ ++ "\",\"to_phase\":\"" ++ to_
    ++ "\",\"trigger\":\"" ++ trigger ++ "\"\x7d"

/-- `Engine.StartFlow`: in one transaction, insert the task at phase A
(version 1, round 0, running, `lastEventSeq = 1`) and append the
`flow_started` event with `seqNo = 1`. -/
def Engine.StartFlow (db : DB) (taskID : String) (budgetCapUSD : ℚ)
    (now : Int) : Except GoError DB := do
  let state : FlowState :=
    { taskID := taskID
      currentPhase := .A
      status := .statusRunning
      stateVersion := 1
      round := 0
      budgetCapUSD := budgetCapUSD
      budgetUsedUSD := 0
      lastEventSeq := 1  -- The initial flow_started event uses seq 1.
      updatedAtUnix := now }
  let db ← TaskRepo.CreateTx db state
  let event : WorkflowEvent :=
    { taskID := taskID
      seqNo := 1
      phase := .A
      eventType := "flow_started"
      payloadJSON := "\x7b\x7d"
      createdAt := now }
  EventRepo.AppendTx db event

/-- `Engine.Advance` for the engine built by `NewEngine` (default gate
registry, default governor): load, refuse completed flows, evaluate the
gate, resolve and validate the target, then in one transaction append
the transition event, save the boundary snapshot, and update the state
under the optimistic lock (marking completed on G, counting rollback
and rework rounds). -/
def Engine.Advance (db : DB) (taskID : String) (trigger : TransitionTrigger)
    (now : Int) : Except GoError DB := do
  let some state := TaskRepo.GetByID db taskID
    | .error (.engine errFlowNotFound)
  if state.status == FlowStatus.statusDone then
    .error (.engine errFlowAlreadyDone)
  else do
  let decision := PhaseGateRegistry.Evaluate NewBudgetGovernor state.currentPhase state
  if !decision.allow then
    .error (.engine ⟨errPhaseGateFailed.code,
      "gate blocked transition: [" ++ String.intercalate " " decision.blockers ++ "]"⟩)
  else do
  let nextPhase ← resolveNextPhase state.currentPhase trigger.action
  if !IsValidTransition state.currentPhase nextPhase then
    .error (.engine ⟨errInvalidTransition.code,
      "illegal transition " ++ state.currentPhase.str ++ " -> " ++ nextPhase.str⟩)
  else do
  let newSeq := state.lastEventSeq + 1
  let event : WorkflowEvent :=
    { taskID := taskID
      seqNo := newSeq
      phase := nextPhase
      eventType := "phase_transition"
      payloadJSON := transitionPayload state.currentPhase.str nextPhase.str
        trigger.action trigger.actor
      createdAt := now }
  let db ← EventRepo.AppendTx db event
  let snap : PhaseSnapshot :=
    { taskID := taskID
      phase := nextPhase
      round := state.round
      snapshotJSON := snapshotPayload state.currentPhase.str nextPhase.str trigger.action
      checksum := ""
      createdAt := now }
  let db ← SnapshotRepo.SaveTx db snap
  let updatedState : FlowState :=
    { state with
      currentPhase := nextPhase
      lastEventSeq := newSeq
      updatedAtUnix := now
      -- If transitioning to phase G, mark as done.
      status := if nextPhase == Phase.G then .statusDone else state.status
      -- Track rollback/rework rounds.
      round := if (state.currentPhase == Phase.D && nextPhase == Phase.C)
          || (state.currentPhase == Phase.F && nextPhase == Phase.E) then
          state.round + 1
        else state.round }
  TaskRepo.UpdateStateTx db updatedState

/-! ## Worker lifecycle (`internal/team`, WorkerManager + Supervisor) -/

/-- `team.isTerminal`: the terminal worker states. -/
def isTerminal (s : WorkerState) : Bool :=
  s == WorkerState.done || s == WorkerState.replaced || s == WorkerState.hardTimeout

/-- `WorkerManager.Spawn`: enforce the active-worker limit, mint the
next worker id from the process-wide counter, insert the worker in
state `created`, and record the `worker_spawned` audit. `now` stands
for the `time.Now()` readings (audit ids are minted from the same
clock). -/
def WorkerManager.Spawn (maxWorkers : Nat) (db : DB) (spec : WorkerSpec)
    (now : Int) : Except GoError (WorkerRef × DB) :=
  if maxWorkers ≤ WorkerRepo.CountActive db spec.taskID then
    .error (.engine errWorkerLimitReached)
  else
    let seq := db.workerSeq + 1
    let db := { db with workerSeq := seq }
    let w : WorkerRef :=
      { workerID := s!"w-{now}-{seq}"
        taskID := spec.taskID
        phase := spec.phase
        role := spec.role
        state := .created
        fileOwnership := spec.fileOwnership
        softTimeoutSec := spec.softTimeoutSec
        hardTimeoutSec := spec.hardTimeoutSec
        lastHeartbeat := now
        createdAtUnix := now }
    let db := WorkerRepo.Create db w
    let db := AuditRepo.Record db
      { id := s!"aud-{now}", taskID := spec.taskID, category := "worker"
        actor := "system", action := "worker_spawned", requestJSON := ""
        decisionJSON := "", severity := "info", createdAt := now }
    .ok (w, db)

/-- `WorkerManager.UpdateState`: load the worker, refuse the change
with `worker_already_done` when its current state is terminal, and
otherwise apply the repository update. -/
def WorkerManager.UpdateState (db : DB) (workerID : String)
    (state : WorkerState) : Except GoError DB := do
  let some existing := WorkerRepo.GetByID db workerID
    | .error (.engine errWorkerNotFound)
  if isTerminal existing.state then
    .error (.engine errWorkerAlreadyDone)
  else
    WorkerRepo.UpdateState db workerID state

/-- `WorkerManager.Replace`: load the old worker, set its state to
`replaced` through the repository (no terminal-state check at this
level), and spawn a fresh worker from the old spec. -/
def WorkerManager.Replace (maxWorkers : Nat) (db : DB) (workerID : String)
    (now : Int) : Except GoError (WorkerRef × DB) := do
  let some old := WorkerRepo.GetByID db workerID
    | .error (.engine errWorkerNotFound)
  let db ← WorkerRepo.UpdateState db workerID .replaced
  let spec : WorkerSpec :=
    { taskID := old.taskID
      phase := old.phase
      role := old.role
      fileOwnership := old.fileOwnership
      softTimeoutSec := old.softTimeoutSec
      hardTimeoutSec := old.hardTimeoutSec }
  WorkerManager.Spawn maxWorkers db spec now

/-- `WorkerManager.Shutdown`: load the worker, set its state to `done`
through the repository, and record the `worker_shutdown` audit. -/
def WorkerManager.Shutdown (db : DB) (workerID : String) (now : Int) :
    Except GoError DB := do
  let some existing := WorkerRepo.GetByID db workerID
    | .error (.engine errWorkerNotFound)
  let db ← WorkerRepo.UpdateState db workerID .done
  .ok (AuditRepo.Record db
    { id := s!"aud-{now}", taskID := existing.taskID, category := "worker"
      actor := "system", action := "worker_shutdown", requestJSON := ""
      decisionJSON := "", severity := "info", createdAt := now })

/-- `team.TimeoutAction`. -/
structure TimeoutAction where
  workerID : String
  type : String  -- "soft" or "hard"
deriving DecidableEq, Repr

/-- `_ = s.WorkerManager.UpdateState(...)`: a manager state change
whose error the supervisor discards, leaving the store as it was. -/
def updateDiscard (db : DB) (wid : String) (s : WorkerState) : DB :=
  (WorkerManager.UpdateState db wid s).toOption.getD db

/-- `_, _ = s.WorkerManager.Replace(...)`: a replacement whose error
the supervisor discards, leaving the store as it was. -/
def replaceDiscard (maxWorkers : Nat) (db : DB) (wid : String) (now : Int) : DB :=
  ((WorkerManager.Replace maxWorkers db wid now).toOption.map Prod.snd).getD db

/-- The hard-timeout arm of the supervisor loop: transition to
`hard_timeout`, immediately replace, audit `hard_timeout` with severity
`warning`, and record a `hard` action. -/
def Supervisor.checkWorkerHard (maxWorkers : Nat) (nowUnix : Int)
    (acc : List TimeoutAction × DB) (w : WorkerRef) : List TimeoutAction × DB :=
  (acc.1 ++ [⟨w.workerID, "hard"⟩],
   AuditRepo.Record
     (replaceDiscard maxWorkers
       (updateDiscard acc.2 w.workerID .hardTimeout) w.workerID nowUnix)
     { id := s!"aud-{nowUnix}", taskID := w.taskID, category := "supervisor"
       actor := "system", action := "hard_timeout", requestJSON := ""
       decisionJSON := "", severity := "warning", createdAt := nowUnix })

/-- The soft-timeout arm of the supervisor loop: transition to
`soft_timeout` (no replacement), audit `soft_timeout`, and record a
`soft` action. -/
def Supervisor.checkWorkerSoft (nowUnix : Int)
    (acc : List TimeoutAction × DB) (w : WorkerRef) : List TimeoutAction × DB :=
  (acc.1 ++ [⟨w.workerID, "soft"⟩],
   AuditRepo.Record (updateDiscard acc.2 w.workerID .softTimeout)
     { id := s!"aud-{nowUnix}", taskID := w.taskID, category := "supervisor"
       actor := "system", action := "soft_timeout", requestJSON := ""
       decisionJSON := "", severity := "warning", createdAt := nowUnix })

/-- The per-worker body of the `Supervisor.CheckTimeouts` loop: the
worker's heartbeat age `nowUnix - lastHeartbeat` is tested against the
hard threshold first, then the soft one. -/
def Supervisor.checkWorker (maxWorkers : Nat) (nowUnix : Int)
    (acc : List TimeoutAction × DB) (w : WorkerRef) : List TimeoutAction × DB :=
  if 0 < w.hardTimeoutSec && w.hardTimeoutSec < nowUnix - w.lastHeartbeat then
    Supervisor.checkWorkerHard maxWorkers nowUnix acc w
  else if 0 < w.softTimeoutSec && w.softTimeoutSec < nowUnix - w.lastHeartbeat then
    Supervisor.checkWorkerSoft nowUnix acc w
  else
    acc

/-- `Supervisor.CheckTimeouts(taskID, nowUnix)`: list the active
workers once, then process each in order. -/
def Supervisor.CheckTimeouts (maxWorkers : Nat) (db : DB) (taskID : String)
    (nowUnix : Int) : List TimeoutAction × DB :=
  (WorkerRepo.ListActive db taskID).foldl
    (Supervisor.checkWorker maxWorkers nowUnix) ([], db)

/-! ## Intent resolver (`internal/team`, IntentResolver) -/

/-- `team.ownsFile`: membership of the target in the ownership list. -/
def ownsFile (ownership : List String) (target : String) : Bool :=
  ownership.any (fun f => f == target)

/-- `IntentResolver.AcquireLock(intent, leaseDurationSec)`: reads first
(active intents on the file, then the worker), failing with
`intent_conflict` and `file_ownership` respectively; then sets the
intent pending with `leaseUntil = now + duration`, upserts it in a
transaction, and records the `lock_acquired` audit. -/
def IntentResolver.AcquireLock (db : DB) (intent : Intent)
    (leaseDurationSec : Int) (now : Int) : Except GoError DB := do
  let active := IntentRepo.FindActiveByFile db intent.taskID intent.targetFile
  if 0 < active.length then
    .error (.engine errIntentConflict)
  else do
  let some worker := WorkerRepo.GetByID db intent.workerID
    | .error (.wrapped ("get worker: " ++ errWorkerNotFound.message))
  if !ownsFile worker.fileOwnership intent.targetFile then
    .error (.engine errFileOwnership)
  else do
  let intent := { intent with status := "pending", leaseUntil := now + leaseDurationSec }
  let db := IntentRepo.UpsertTx db intent
  .ok (AuditRepo.Record db
    { id := s!"aud-{now}", taskID := intent.taskID, category := "intent"
      actor := intent.workerID, action := "lock_acquired", requestJSON := ""
      decisionJSON := "", severity := "info", createdAt := now })

/-- `IntentResolver.Execute(intentID, currentHash, postHash)`: load the
intent, fail `lease_expired` when its lease lies strictly before `now`,
fail `intent_hash_mismatch` when the stored pre-hash differs from
`currentHash`, and otherwise mark it done in a transaction and record
the `intent_executed` audit. -/
def IntentResolver.Execute (db : DB) (intentID currentHash postHash : String)
    (now : Int) : Except GoError DB := do
  let some existing := IntentRepo.GetByID db intentID
    | .error (.engine errIntentNotFound)
  if existing.leaseUntil < now then
    .error (.engine errLeaseExpired)
  else if existing.preHash ≠ currentHash then
    .error (.engine errIntentHashMismatch)
  else do
  let db ← IntentRepo.MarkDoneTx db intentID postHash
  .ok (AuditRepo.Record db
    { id := s!"aud-{now}", taskID := existing.taskID, category := "intent"
      actor := existing.workerID, action := "intent_executed", requestJSON := ""
      decisionJSON := "", severity := "info", createdAt := now })

/-! ## Review (`internal/review`: schema, consensus, blockers) -/

/-- `review.validVerdicts`. -/
def validVerdict (v : String) : Bool :=
  v == "pass" || v == "conditional_pass" || v == "fail"

/-- `review.validSeverities`. -/
def validSeverity (s : String) : Bool :=
  s == "P0" || s == "P1" || s == "P2"

/-- `SchemaValidator.Validate`: collect every violation (empty ids,
unknown verdict, scores out of [1, 5], unknown issue severities) and
fail with one `score_card_invalid` error listing them all. -/
def SchemaValidator.Validate (card : ScoreCard) : Except GoError Unit :=
  let violations : List String :=
    (if card.reviewID == "" then ["ReviewID must be non-empty"] else [])
    ++ (if card.reviewer == "" then ["Reviewer must be non-empty"] else [])
    ++ (if !validVerdict card.verdict then
        [s!"Verdict \"{card.verdict}\" is not valid; must be pass, conditional_pass, or fail"]
      else [])
    ++ ([("Correctness", card.scores.correctness),
         ("Security", card.scores.security),
         ("Maintainability", card.scores.maintainability),
         ("Cost", card.scores.cost),
         ("DeliveryRisk", card.scores.deliveryRisk)].filterMap
        (fun p => if p.2 < 1 || 5 < p.2 then
            some s!"{p.1} score {p.2} out of range [1, 5]"
          else none))
    ++ ((card.issues.enum).filterMap (fun p =>
        if !validSeverity p.2.severity then
          some s!"Issue[{p.1}] severity \"{p.2.severity}\" is not valid; must be P0, P1, or P2"
        else none))
  if 0 < violations.length then
    .error (.engine ⟨errScoreCardInvalid.code, String.intercalate "; " violations⟩)
  else
    .ok ()

/-- `review.DefaultWeights`: the standard reviewer weight distribution
(the Go map is modelled as an association list; only lookups matter). -/
def DefaultWeights : List (String × ℚ) :=
  [("primary", 9/20), ("secondary", 1/4), ("lead", 3/10)]

/-- The weight applied to a card: `weights[reviewer]`, defaulting to
1.0 when the reviewer is missing from the map. -/
def reviewerWeight (weights : List (String × ℚ)) (reviewer : String) : ℚ :=
  match weights.find? (fun p => p.1 == reviewer) with
  | some p => p.2
  | none => 1

/-- A card's 5-dimension average `(sum of scores)/5`. -/
def cardAvg (card : ScoreCard) : ℚ :=
  (card.scores.correctness + card.scores.security + card.scores.maintainability
    + card.scores.cost + card.scores.deliveryRisk : ℤ) / 5

/-- First validation error over a card list, mirroring the loop in
`ConsensusEngine.Evaluate` that returns on the first invalid card. -/
def validateAll : List ScoreCard → Except GoError Unit
  | [] => .ok ()
  | card :: rest => do
    let _ ← SchemaValidator.Validate card
    validateAll rest

/-- `ConsensusEngine.Evaluate(cards)`: refuse the empty list with
`consensus_no_cards`; validate every card; accumulate the weighted sum
and total weight over the cards; divide; map the final score to a
verdict (`pass` at 4.0, `conditional_pass` at 3.0, else `fail`). The
result's `Blocking`/`BlockReasons` fields are returned as
`false`/`nil` unconditionally. -/
def ConsensusEngine.Evaluate (weights : List (String × ℚ)) (cards : List ScoreCard) :
    Except GoError ConsensusResult := do
  if cards.length == 0 then
    .error (.engine errConsensusNoCards)
  else do
  let _ ← validateAll cards
  let (weightedSum, totalWeight) := cards.foldl
    (fun (acc : ℚ × ℚ) card =>
      let w := reviewerWeight weights card.reviewer
      (acc.1 + cardAvg card * w, acc.2 + w))
    (0, 0)
  let finalScore := weightedSum / totalWeight
  let verdict :=
    if 4 ≤ finalScore then "pass"
    else if 3 ≤ finalScore then "conditional_pass"
    else "fail"
  .ok { weightedScore := finalScore
        finalVerdict := verdict
        blocking := false
        blockReasons := [] }

/-- `BlockerChecker.Check(cards)`: one reason per critically low
correctness or security score (≤ 2) and per P0 issue; blocking iff any
reason was emitted. -/
def BlockerChecker.Check (cards : List ScoreCard) : Bool × List String :=
  let reasons := cards.flatMap (fun card =>
    (if card.scores.correctness ≤ 2 then
      [s!"{card.reviewer}: correctness score {card.scores.correctness} is critically low"]
    else [])
    ++ (if card.scores.security ≤ 2 then
      [s!"{card.reviewer}: security score {card.scores.security} is critically low"]
    else [])
    ++ (card.issues.filterMap (fun issue =>
      if issue.severity == "P0" then
        some s!"{card.reviewer}: P0 issue at {issue.location}: {issue.description}"
      else none)))
  (0 < reasons.length, reasons)

/-! ## Theorems -/

/-- Computation rule for `Except` bind on a success, used to evaluate
the model's monadic pipelines. -/
theorem except_ok_bind (a : α) (f : α → Except GoError β) :
    (Except.ok a >>= f : Except GoError β) = f a := rfl

/-- Computation rule for `Except` bind on an error. -/
theorem except_error_bind (e : GoError) (f : α → Except GoError β) :
    (Except.error e >>= f : Except GoError β) = .error e := rfl

/-- The default governor's decision for the happy-path budget `(0,
100)` (rational arithmetic evaluated once, so that concrete runs can
be computed by `simp`). -/
theorem gate_continue_0_100 :
    NewBudgetGovernor.evaluate 0 100 = CostAction.costContinue := by
  norm_num [NewBudgetGovernor, BudgetGovernor.evaluate]

/-- One `advance`-action call on task `t1`, as issued by the happy-path
scenario. -/
def happyStep (db : Except GoError DB) : Except GoError DB :=
  db.bind (fun d => Engine.Advance d "t1" ⟨"advance", "tester"⟩ 0)

/-- The database after `startFlow("t1", 100)` followed by `k` advance
calls. -/
def c1State (k : Nat) : Except GoError DB :=
  happyStep^[k] (Engine.StartFlow DB.empty "t1" 100 0)

/-- Task `t1`'s current phase after `startFlow` and `k` advances. -/
def c1Phase (k : Nat) : Option Phase :=
  (c1State k).toOption.bind fun d => (TaskRepo.GetByID d "t1").map (·.currentPhase)

/-- C1: `startFlow("t1", 100)` followed by six `advance`-action calls
moves the task through phases A, B, C, D, E, F, G in order and ends
completed with round 0, lastEventSeq 7, exactly seven workflow events
and exactly six phase snapshots. -/
theorem happy_path_seven_phases :
    (List.range 7).map c1Phase
      = [some .A, some .B, some .C, some .D, some .E, some .F, some .G]
    ∧ ((c1State 6).toOption.map fun db =>
        ((TaskRepo.GetByID db "t1").map fun s =>
          (s.status, s.round, s.lastEventSeq),
         db.events.length, db.snapshots.length))
      = some (some (.statusDone, 0, 7), 7, 6) := by
  constructor
  · simp [c1Phase, c1State, Engine.StartFlow, TaskRepo.CreateTx,
      EventRepo.AppendTx, DB.empty, TaskRepo.GetByID, except_ok_bind,
      List.find?, Except.toOption, Option.bind, Option.map, Except.bind,
      happyStep, Engine.Advance, PhaseGateRegistry.Evaluate,
      DefaultGate.Evaluate, BudgetGovernor.CheckBudget,
      gate_continue_0_100,
      resolveNextPhase, nextPhaseForward, IsValidTransition,
      SnapshotRepo.SaveTx, TaskRepo.UpdateStateTx, updateTaskRows,
      transitionPayload, snapshotPayload, Phase.str, FlowStatus.str,
      List.range, List.range.loop]
  · simp [c1Phase, c1State, Engine.StartFlow, TaskRepo.CreateTx,
      EventRepo.AppendTx, DB.empty, TaskRepo.GetByID, except_ok_bind,
      List.find?, Except.toOption, Option.bind, Option.map, Except.bind,
      happyStep, Engine.Advance, PhaseGateRegistry.Evaluate,
      DefaultGate.Evaluate, BudgetGovernor.CheckBudget,
      gate_continue_0_100,
      resolveNextPhase, nextPhaseForward, IsValidTransition,
      SnapshotRepo.SaveTx, TaskRepo.UpdateStateTx, updateTaskRows,
      transitionPayload, snapshotPayload, Phase.str, FlowStatus.str]

/-- C2: `isValidTransition` accepts exactly the eight edges of the
phase graph and rejects every other pair. -/
theorem isValidTransition_characterization (f t : Phase) :
    IsValidTransition f t = true ↔
      (f, t) ∈ ([(.A, .B), (.B, .C), (.C, .D), (.D, .E), (.D, .C),
        (.E, .F), (.F, .E), (.F, .G)] : List (Phase × Phase)) := by
  cases f <;> cases t <;> decide

/-- C4: the default budget governor's `evaluate` returns halt when
`cap > 0` and `used/cap ≥ 1`, warn when `cap > 0` and `0.8 ≤ used/cap
< 1`, continue when `cap > 0` and `used/cap < 0.8`, and continue
whenever `cap ≤ 0`; in particular `(cap, cap)` halts, `(0.8·cap, cap)`
warns and `(0, cap)` continues for positive caps. -/
theorem budget_evaluate_thresholds (used cap : ℚ) :
    (0 < cap → 1 ≤ used / cap →
      NewBudgetGovernor.evaluate used cap = .costHalt)
    ∧ (0 < cap → 4/5 ≤ used / cap → used / cap < 1 →
      NewBudgetGovernor.evaluate used cap = .costWarn)
    ∧ (0 < cap → used / cap < 4/5 →
      NewBudgetGovernor.evaluate used cap = .costContinue)
    ∧ (cap ≤ 0 → NewBudgetGovernor.evaluate used cap = .costContinue)
    ∧ (0 < cap →
      NewBudgetGovernor.evaluate cap cap = .costHalt
      ∧ NewBudgetGovernor.evaluate (4/5 * cap) cap = .costWarn
      ∧ NewBudgetGovernor.evaluate 0 cap = .costContinue) := by
  simp only [BudgetGovernor.evaluate, NewBudgetGovernor]
  refine ⟨?_, ?_, ?_, ?_, ?_⟩
  · intro hcap hratio
    rw [if_neg (by linarith), if_pos hratio]
  · intro hcap hwarn hhalt
    rw [if_neg (by linarith), if_neg (by linarith), if_pos hwarn]
  · intro hcap hlow
    rw [if_neg (by linarith), if_neg (by linarith), if_neg (by linarith)]
  · intro hcap
    rw [if_pos hcap]
  · intro hcap
    have hne : cap ≠ 0 := ne_of_gt hcap
    refine ⟨?_, ?_, ?_⟩
    · rw [if_neg (by linarith), div_self hne, if_pos le_rfl]
    · have h45 : 4/5 * cap / cap = (4/5 : ℚ) := by
        rw [mul_div_assoc, div_self hne, mul_one]
      rw [if_neg (by linarith), h45, if_neg (by norm_num), if_pos le_rfl]
    · rw [if_neg (by linarith), zero_div, if_neg (by norm_num),
        if_neg (by norm_num)]

/-- Witness for C4 at concrete inputs: `(5, 4)` halts, `(8, 10)`
warns, `(1, 10)` continues, `(7, 0)` continues, and the three
particular shapes at `cap = 10`. -/
theorem budget_evaluate_thresholds_witness :
    NewBudgetGovernor.evaluate 5 4 = .costHalt
    ∧ NewBudgetGovernor.evaluate 8 10 = .costWarn
    ∧ NewBudgetGovernor.evaluate 1 10 = .costContinue
    ∧ NewBudgetGovernor.evaluate 7 0 = .costContinue
    ∧ NewBudgetGovernor.evaluate 10 10 = .costHalt
    ∧ NewBudgetGovernor.evaluate (4/5 * 10) 10 = .costWarn
    ∧ NewBudgetGovernor.evaluate 0 10 = .costContinue := by
  obtain ⟨h1, _, _, _, _⟩ := budget_evaluate_thresholds 5 4
  obtain ⟨_, h2, h3, _, _⟩ := budget_evaluate_thresholds 8 10
  obtain ⟨_, _, h3', _, _⟩ := budget_evaluate_thresholds 1 10
  obtain ⟨_, _, _, h4, _⟩ := budget_evaluate_thresholds 7 0
  obtain ⟨_, _, _, _, h5⟩ := budget_evaluate_thresholds 10 10
  obtain ⟨h5a, h5b, h5c⟩ := h5 (by norm_num)
  exact ⟨h1 (by norm_num) (by norm_num),
    h2 (by norm_num) (by norm_num) (by norm_num),
    h3' (by norm_num) (by norm_num),
    h4 le_rfl, h5a, h5b, h5c⟩

/-- A worker whose heartbeat has lapsed past its 30-second hard
timeout, as in the hard-timeout scenario. -/
def staleWorker : WorkerRef :=
  { workerID := "w-1", taskID := "task-1", phase := .C, role := "coder"
    state := .created, fileOwnership := ["main.go"], softTimeoutSec := 10
    hardTimeoutSec := 30, lastHeartbeat := 0, createdAtUnix := 0 }

/-- A database holding just `staleWorker`. -/
def staleDB : DB := { DB.empty with workers := [staleWorker] }

/-- C3 counterexample: the supervisor's hard-timeout handling first
sets the worker to `hard_timeout` — a terminal state — and then calls
`WorkerManager.Replace`, which writes `replaced` through the
repository without the terminal-state check, so the worker is
transitioned out of a terminal state. The same two calls the
supervisor issues (`UpdateState` to `hard_timeout`, then `Replace`)
are evaluated here at a concrete worker, and the run of
`Supervisor.CheckTimeouts` itself leaves the worker in `replaced`. -/
theorem replace_moves_terminal_worker :
    ((WorkerManager.UpdateState staleDB "w-1" .hardTimeout).map
        (fun db => (WorkerRepo.GetByID db "w-1").map WorkerRef.state)
      = .ok (some .hardTimeout))
    ∧ isTerminal .hardTimeout = true
    ∧ (((WorkerManager.UpdateState staleDB "w-1" .hardTimeout).bind
        (fun db => WorkerManager.Replace 10 db "w-1" 35)).map
        (fun p => (WorkerRepo.GetByID p.2 "w-1").map WorkerRef.state)
      = .ok (some .replaced))
    ∧ ((WorkerRepo.GetByID (Supervisor.CheckTimeouts 10 staleDB "task-1" 35).2
        "w-1").map WorkerRef.state = some .replaced) := by
  refine ⟨rfl, rfl, rfl, rfl⟩

/-- A worker observed terminal in `db` is still present and terminal
(possibly in a different terminal state) in `db'`. -/
def terminalPreserved (db db' : DB) : Prop :=
  ∀ id w, WorkerRepo.GetByID db id = some w → isTerminal w.state = true →
    ∃ w', WorkerRepo.GetByID db' id = some w' ∧ isTerminal w'.state = true

theorem terminalPreserved_refl (db : DB) : terminalPreserved db db :=
  fun _ w hw ht => ⟨w, hw, ht⟩

theorem terminalPreserved_trans {a b c : DB} (h1 : terminalPreserved a b)
    (h2 : terminalPreserved b c) : terminalPreserved a c := by
  intro id w hw ht
  obtain ⟨w1, hw1, ht1⟩ := h1 id w hw ht
  exact h2 id w1 hw1 ht1

/-- A successful repository-level worker-state update rewrites exactly
the rows with the given id and leaves worker lookups otherwise
pointwise unchanged. -/
theorem repo_updateState_getByID {db : DB} {wid : String} {s : WorkerState}
    {db' : DB} (h : WorkerRepo.UpdateState db wid s = .ok db') (id : String) :
    WorkerRepo.GetByID db' id = (WorkerRepo.GetByID db id).map
      (fun w => if w.workerID == wid then { w with state := s } else w) := by
  unfold WorkerRepo.UpdateState at h
  split at h
  · obtain rfl : _ = db' := Except.ok.inj h
    have hpred : ((fun w : WorkerRef => w.workerID == id) ∘
        (fun w => if w.workerID == wid then { w with state := s } else w))
        = (fun w : WorkerRef => w.workerID == id) := by
      funext w
      by_cases hw : (w.workerID == wid) = true
      · simp only [Function.comp_apply, if_pos hw]
      · simp only [Function.comp_apply, if_neg hw]
    show (db.workers.map _).find? _ = _
    rw [List.find?_map, hpred]
    rfl
  · cases h

/-- A successful spawn only appends a worker, so an existing lookup is
unchanged. -/
theorem spawn_getByID {mw : Nat} {db : DB} {spec : WorkerSpec} {now : Int}
    {w' : WorkerRef} {db' : DB}
    (h : WorkerManager.Spawn mw db spec now = .ok (w', db'))
    {id : String} {w : WorkerRef} (hfind : WorkerRepo.GetByID db id = some w) :
    WorkerRepo.GetByID db' id = some w := by
  unfold WorkerManager.Spawn at h
  split at h
  · cases h
  · obtain rfl : _ = db' := congrArg Prod.snd (Except.ok.inj h)
    show (db.workers ++ [_]).find? _ = _
    rw [List.find?_append]
    unfold WorkerRepo.GetByID at hfind
    rw [hfind, Option.or_some]

/-- `WorkerManager.UpdateState` keeps terminal workers terminal: it
only ever rewrites a worker whose current (first-row) state is not
terminal. -/
theorem manager_updateState_preserves {db : DB} {wid : String}
    {s : WorkerState} {db' : DB}
    (h : WorkerManager.UpdateState db wid s = .ok db') :
    terminalPreserved db db' := by
  intro id w hw ht
  unfold WorkerManager.UpdateState at h
  cases hex : WorkerRepo.GetByID db wid with
  | none => rw [hex] at h; cases h
  | some existing =>
    rw [hex] at h
    simp only at h
    by_cases hterm : isTerminal existing.state = true
    · rw [if_pos hterm] at h; cases h
    · rw [if_neg hterm] at h
      refine ⟨if (w.workerID == wid) = true then { w with state := s } else w,
        ?_, ?_⟩
      · rw [repo_updateState_getByID h id, hw]; rfl
      by_cases hid : (w.workerID == wid) = true
      · exfalso
        have hwid : w.workerID = id := by
          have := List.find?_some hw
          exact of_decide_eq_true this
        have : wid = id := by
          cases of_decide_eq_true hid; exact hwid
        subst this
        rw [hex] at hw
        cases hw
        exact hterm ht
      · simpa [hid] using ht

/-- `WorkerManager.Spawn` keeps terminal workers terminal. -/
theorem spawn_preserves {mw : Nat} {db : DB} {spec : WorkerSpec} {now : Int}
    {w' : WorkerRef} {db' : DB}
    (h : WorkerManager.Spawn mw db spec now = .ok (w', db')) :
    terminalPreserved db db' := by
  intro id w hw ht
  exact ⟨w, spawn_getByID h hw, ht⟩

/-- `WorkerManager.Replace` keeps terminal workers terminal: the old
worker is rewritten to `replaced`, itself a terminal state. -/
theorem replace_preserves {mw : Nat} {db : DB} {wid : String} {now : Int}
    {w' : WorkerRef} {db' : DB}
    (h : WorkerManager.Replace mw db wid now = .ok (w', db')) :
    terminalPreserved db db' := by
  intro id w hw ht
  unfold WorkerManager.Replace at h
  cases hex : WorkerRepo.GetByID db wid with
  | none => rw [hex] at h; cases h
  | some old =>
    rw [hex] at h
    simp only at h
    cases hupd : WorkerRepo.UpdateState db wid .replaced with
    | error e => rw [hupd] at h; cases h
    | ok db1 =>
      rw [hupd, except_ok_bind] at h
      have hdb1 : WorkerRepo.GetByID db1 id
          = some (if (w.workerID == wid) = true then { w with state := .replaced } else w) := by
        rw [repo_updateState_getByID hupd id, hw]; rfl
      have hterm1 : isTerminal (if (w.workerID == wid) = true then
          { w with state := WorkerState.replaced } else w).state = true := by
        by_cases hid : (w.workerID == wid) = true
        · simp [hid, isTerminal]
        · rw [if_neg hid]; exact ht
      exact ⟨_, spawn_getByID h hdb1, hterm1⟩

/-- `WorkerManager.Shutdown` keeps terminal workers terminal: the
worker is rewritten to `done`, itself a terminal state. -/
theorem shutdown_preserves {db : DB} {wid : String} {now : Int} {db' : DB}
    (h : WorkerManager.Shutdown db wid now = .ok db') :
    terminalPreserved db db' := by
  intro id w hw ht
  unfold WorkerManager.Shutdown at h
  cases hex : WorkerRepo.GetByID db wid with
  | none => rw [hex] at h; cases h
  | some existing =>
    rw [hex] at h
    simp only at h
    cases hupd : WorkerRepo.UpdateState db wid .done with
    | error e => rw [hupd] at h; cases h
    | ok db1 =>
      rw [hupd, except_ok_bind] at h
      obtain rfl : _ = db' := Except.ok.inj h
      refine ⟨if (w.workerID == wid) = true then { w with state := .done } else w,
        ?_, ?_⟩
      · show WorkerRepo.GetByID db1 id = _
        rw [repo_updateState_getByID hupd id, hw]; rfl
      · by_cases hid : (w.workerID == wid) = true
        · simp [hid, isTerminal]
        · rw [if_neg hid]; exact ht

/-- Audit inserts never touch worker rows. -/
theorem record_preserves (db : DB) (rec : AuditRecord) :
    terminalPreserved db (AuditRepo.Record db rec) :=
  fun _ w hw ht => ⟨w, hw, ht⟩

/-- A manager state update whose error is discarded keeps terminal
workers terminal. -/
theorem updateDiscard_preserves (db : DB) (wid : String) (s : WorkerState) :
    terminalPreserved db (updateDiscard db wid s) := by
  unfold updateDiscard
  cases hupd : WorkerManager.UpdateState db wid s with
  | error e => simpa [hupd, Except.toOption] using terminalPreserved_refl db
  | ok db1 => simpa [hupd, Except.toOption] using manager_updateState_preserves hupd

/-- A replacement whose error is discarded keeps terminal workers
terminal. -/
theorem replaceDiscard_preserves (mw : Nat) (db : DB) (wid : String) (now : Int) :
    terminalPreserved db (replaceDiscard mw db wid now) := by
  unfold replaceDiscard
  cases hrep : WorkerManager.Replace mw db wid now with
  | error e => simpa [hrep, Except.toOption] using terminalPreserved_refl db
  | ok p =>
    have : p = (p.1, p.2) := rfl
    rw [this] at hrep
    simpa [hrep, Except.toOption] using
      replace_preserves hrep

/-- One iteration of the supervisor's timeout loop keeps terminal
workers terminal (state-change and replacement errors are discarded,
leaving the store as it was). -/
theorem checkWorker_preserves (mw : Nat) (now : Int)
    (acc : List TimeoutAction × DB) (w0 : WorkerRef) :
    terminalPreserved acc.2 (Supervisor.checkWorker mw now acc w0).2 := by
  unfold Supervisor.checkWorker
  split
  · exact terminalPreserved_trans
      (updateDiscard_preserves acc.2 w0.workerID .hardTimeout)
      (terminalPreserved_trans
        (replaceDiscard_preserves mw _ w0.workerID now)
        (record_preserves _ _))
  · split
    · exact terminalPreserved_trans
        (updateDiscard_preserves acc.2 w0.workerID .softTimeout)
        (record_preserves _ _)
    · exact terminalPreserved_refl acc.2

/-- The supervisor's whole `CheckTimeouts` pass keeps terminal workers
terminal. -/
theorem checkTimeouts_preserves_aux (mw : Nat) (now : Int)
    (ws : List WorkerRef) (acc : List TimeoutAction × DB) :
    terminalPreserved acc.2 (ws.foldl (Supervisor.checkWorker mw now) acc).2 := by
  induction ws generalizing acc with
  | nil => exact terminalPreserved_refl acc.2
  | cons hd tl ih =>
    exact terminalPreserved_trans (checkWorker_preserves mw now acc hd)
      (ih (Supervisor.checkWorker mw now acc hd))

/-- C3 amended: `WorkerManager.UpdateState` refuses to move a worker
out of a terminal state (failing with `worker_already_done`), and every
worker operation — spawn, state update, replace, shutdown, and the
supervisor's `CheckTimeouts` pass — leaves a terminal worker in a
terminal state. (The specific terminal state may change:
`WorkerManager.Replace`, used by the supervisor's hard-timeout
handling, rewrites a `hard_timeout` worker to `replaced`.) -/
theorem terminal_workers_stay_terminal (db : DB) :
    (∀ workerID w s, WorkerRepo.GetByID db workerID = some w →
      isTerminal w.state = true →
      WorkerManager.UpdateState db workerID s
        = .error (.engine errWorkerAlreadyDone))
    ∧ (∀ workerID s db', WorkerManager.UpdateState db workerID s = .ok db' →
      terminalPreserved db db')
    ∧ (∀ mw spec now w' db', WorkerManager.Spawn mw db spec now = .ok (w', db') →
      terminalPreserved db db')
    ∧ (∀ mw workerID now w' db',
      WorkerManager.Replace mw db workerID now = .ok (w', db') →
      terminalPreserved db db')
    ∧ (∀ workerID now db', WorkerManager.Shutdown db workerID now = .ok db' →
      terminalPreserved db db')
    ∧ (∀ mw taskID now,
      terminalPreserved db (Supervisor.CheckTimeouts mw db taskID now).2) := by
  refine ⟨?_, ?_, ?_, ?_, ?_, ?_⟩
  · intro workerID w s hw ht
    simp [WorkerManager.UpdateState, hw, ht]
  · intro _ _ _ h; exact manager_updateState_preserves h
  · intro _ _ _ _ _ h; exact spawn_preserves h
  · intro _ _ _ _ _ h; exact replace_preserves h
  · intro _ _ _ h; exact shutdown_preserves h
  · intro mw taskID now
    exact checkTimeouts_preserves_aux mw now (WorkerRepo.ListActive db taskID)
      ([], db)

/-- A database holding one worker already shut down (terminal state
`done`). -/
def doneDB : DB :=
  { DB.empty with workers := [{ staleWorker with workerID := "w-9", state := .done }] }

/-- Witness for the amended C3 theorem: on a concrete store with a
`done` worker, `UpdateState` back to `running` fails with
`worker_already_done`, and a `CheckTimeouts` pass keeps the worker
terminal. -/
theorem terminal_workers_stay_terminal_witness :
    WorkerManager.UpdateState doneDB "w-9" .running
      = .error (.engine errWorkerAlreadyDone)
    ∧ ∃ w', WorkerRepo.GetByID (Supervisor.CheckTimeouts 10 doneDB "task-1" 99).2
        "w-9" = some w' ∧ isTerminal w'.state = true := by
  refine ⟨(terminal_workers_stay_terminal doneDB).1 "w-9" _ .running rfl rfl, ?_⟩
  exact (terminal_workers_stay_terminal doneDB).2.2.2.2.2 10 "task-1" 99 "w-9" _ rfl rfl

/-- The database produced by the first `startFlow("t1", 100)` call. -/
def firstStartDB : DB :=
  match Engine.StartFlow DB.empty "t1" 100 0 with
  | .ok db => db
  | .error _ => DB.empty

/-- C5 (evaluated at the failing input): `startFlow("t1", 100)`
succeeds once; the second call with the same id fails — but with the
driver's unique-constraint error wrapped by `TaskRepo.CreateTx`, which
is not a `domain.EngineError` and in particular not `duplicate_task`
(-32019); the transaction rolls back, so the first call's task row and
`flow_started` event are left unchanged. -/
theorem duplicate_startFlow_not_engine_error :
    Engine.StartFlow DB.empty "t1" 100 0 = .ok firstStartDB
    ∧ Engine.StartFlow firstStartDB "t1" 100 5
      = .error (.wrapped "create task: UNIQUE constraint failed: tasks.task_id")
    ∧ GoError.isEngine
        (.wrapped "create task: UNIQUE constraint failed: tasks.task_id")
        errDuplicateTask = false
    ∧ (TaskRepo.GetByID firstStartDB "t1").map
        (fun s => (s.currentPhase, s.status, s.stateVersion, s.lastEventSeq))
      = some (.A, .statusRunning, 1, 1)
    ∧ firstStartDB.events.length = 1 := by
  refine ⟨rfl, rfl, rfl, rfl, rfl⟩

/-- A file is owned exactly when it appears in the ownership list. -/
theorem ownsFile_iff (l : List String) (t : String) :
    ownsFile l t = true ↔ t ∈ l := by
  simp [ownsFile, List.any_eq_true]

/-- After an upsert, looking the intent up by its id yields a row
carrying the upserted status, lease, and pre-hash (the id and — on
conflict — the task id come from the existing row). -/
theorem upsertIntentRows_find (l : List Intent) (i : Intent) :
    ∃ j, (upsertIntentRows l i).find? (fun o => o.intentID == i.intentID) = some j
      ∧ j.status = i.status ∧ j.leaseUntil = i.leaseUntil
      ∧ j.preHash = i.preHash := by
  induction l with
  | nil =>
    refine ⟨i, ?_, rfl, rfl, rfl⟩
    simp [upsertIntentRows]
  | cons hd tl ih =>
    by_cases hh : (hd.intentID == i.intentID) = true
    · refine ⟨{ i with intentID := hd.intentID, taskID := hd.taskID },
        ?_, rfl, rfl, rfl⟩
      unfold upsertIntentRows
      rw [if_pos (by simp [List.any_cons, hh])]
      rw [List.map_cons, if_pos hh]
      exact List.find?_cons_of_pos
        (p := fun o : Intent => o.intentID == i.intentID) _ hh
    · by_cases ha : tl.any (fun o => o.intentID == i.intentID) = true
      · obtain ⟨j, hj, hjs, hjl, hjp⟩ := ih
        refine ⟨j, ?_, hjs, hjl, hjp⟩
        unfold upsertIntentRows
        rw [if_pos (by simp [List.any_cons, ha])]
        rw [List.map_cons, if_neg hh,
          List.find?_cons_of_neg (p := fun o : Intent => o.intentID == i.intentID) _ hh]
        unfold upsertIntentRows at hj
        rwa [if_pos ha] at hj
      · obtain ⟨j, hj, hjs, hjl, hjp⟩ := ih
        refine ⟨j, ?_, hjs, hjl, hjp⟩
        unfold upsertIntentRows
        rw [if_neg (by simp [List.any_cons, hh, ha])]
        rw [List.cons_append,
          List.find?_cons_of_neg (p := fun o : Intent => o.intentID == i.intentID) _ hh]
        unfold upsertIntentRows at hj
        rwa [if_neg ha] at hj

/-- Specialisation of `upsertIntentRows_find` to the store. -/
theorem intentGetByID_upsert (db : DB) (i : Intent) :
    ∃ j, IntentRepo.GetByID (IntentRepo.UpsertTx db i) i.intentID = some j
      ∧ j.status = i.status ∧ j.leaseUntil = i.leaseUntil
      ∧ j.preHash = i.preHash :=
  upsertIntentRows_find db.intents i

/-- C6: `acquireLock` fails `intent_conflict` whenever an active
(pending or running) intent exists for the same `(taskID, targetFile)`;
otherwise it fails `file_ownership` whenever the target file is not in
the requesting worker's ownership list; otherwise it stores the intent
with status `pending` and `leaseUntil = now + leaseDurationSec`. -/
theorem acquireLock_checks (db : DB) (intent : Intent) (dur now : Int) :
    (IntentRepo.FindActiveByFile db intent.taskID intent.targetFile ≠ [] →
      IntentResolver.AcquireLock db intent dur now
        = .error (.engine errIntentConflict))
    ∧ (∀ w, IntentRepo.FindActiveByFile db intent.taskID intent.targetFile = [] →
        WorkerRepo.GetByID db intent.workerID = some w →
        intent.targetFile ∉ w.fileOwnership →
        IntentResolver.AcquireLock db intent dur now
          = .error (.engine errFileOwnership))
    ∧ (∀ w, IntentRepo.FindActiveByFile db intent.taskID intent.targetFile = [] →
        WorkerRepo.GetByID db intent.workerID = some w →
        intent.targetFile ∈ w.fileOwnership →
        ∃ db' j, IntentResolver.AcquireLock db intent dur now = .ok db'
          ∧ IntentRepo.GetByID db' intent.intentID = some j
          ∧ j.status = "pending" ∧ j.leaseUntil = now + dur) := by
  refine ⟨?_, ?_, ?_⟩
  · intro hne
    have hlen : 0 < (IntentRepo.FindActiveByFile db intent.taskID
        intent.targetFile).length :=
      List.length_pos.mpr hne
    simp [IntentResolver.AcquireLock, hlen]
  · intro w hempty hw hout
    have hown : ownsFile w.fileOwnership intent.targetFile = false :=
      Bool.eq_false_iff.mpr (fun hc => hout ((ownsFile_iff _ _).mp hc))
    simp [IntentResolver.AcquireLock, hempty, hw, hown]
  · intro w hempty hw hin
    have hown : ownsFile w.fileOwnership intent.targetFile = true :=
      (ownsFile_iff _ _).mpr hin
    obtain ⟨j, hj, hjs, hjl, _⟩ := intentGetByID_upsert db
      { intent with status := "pending", leaseUntil := now + dur }
    refine ⟨AuditRepo.Record (IntentRepo.UpsertTx db
        { intent with status := "pending", leaseUntil := now + dur })
        { id := s!"aud-{now}", taskID := intent.taskID, category := "intent"
          actor := intent.workerID, action := "lock_acquired", requestJSON := ""
          decisionJSON := "", severity := "info", createdAt := now },
      j, ?_, hj, hjs, hjl⟩
    simp [IntentResolver.AcquireLock, hempty, hw, hown]

/-- A worker owning `main.go`, ready to take an intent lock. -/
def ownerWorker : WorkerRef :=
  { workerID := "w-1", taskID := "task-1", phase := .C, role := "coder"
    state := .running, fileOwnership := ["main.go"], softTimeoutSec := 300
    hardTimeoutSec := 600, lastHeartbeat := 0, createdAtUnix := 0 }

/-- A fresh intent of `ownerWorker` on `main.go`. -/
def mainIntent : Intent :=
  { intentID := "i-1", taskID := "task-1", workerID := "w-1"
    targetFile := "main.go", operation := "write", status := ""
    preHash := "h0", postHash := "", payloadHash := "", leaseUntil := 0 }

/-- A store with `ownerWorker` and no intents. -/
def lockFreeDB : DB := { DB.empty with workers := [ownerWorker] }

/-- A store where a pending intent of another worker already covers
`main.go`. -/
def lockHeldDB : DB :=
  { DB.empty with
    workers := [ownerWorker]
    intents := [{ mainIntent with
      intentID := "i-0", workerID := "w-0", status := "pending" }] }

/-- Witness for C6: on a store with only `ownerWorker`, the lock is
acquired pending with a 60-second lease from `now = 1000`; and on a
store that already holds a pending intent on the same file, the second
acquire fails `intent_conflict`. -/
theorem acquireLock_checks_witness :
    (∃ db' j, IntentResolver.AcquireLock lockFreeDB mainIntent 60 1000 = .ok db'
      ∧ IntentRepo.GetByID db' "i-1" = some j
      ∧ j.status = "pending" ∧ j.leaseUntil = 1000 + 60)
    ∧ IntentResolver.AcquireLock lockHeldDB
        { mainIntent with intentID := "i-2" } 60 1000
      = .error (.engine errIntentConflict) := by
  constructor
  · exact (acquireLock_checks lockFreeDB mainIntent 60 1000).2.2
      ownerWorker rfl rfl (by decide)
  · exact (acquireLock_checks lockHeldDB _ 60 1000).1
      (by simp [lockHeldDB, mainIntent, IntentRepo.FindActiveByFile,
        intentActive, DB.empty])

/-- C7: with the stored intent loaded, `execute` fails `lease_expired`
exactly when the stored `leaseUntil` lies strictly before the current
time; otherwise it fails `intent_hash_mismatch` exactly when the
stored `preHash` differs from `currentHash`; and an intent acquired
with `leaseDurationSec = 0` fails `lease_expired` on any execute after
a strictly positive delay. -/
theorem execute_lease_hash (db : DB) (intentID curHash postHash : String)
    (now : Int) (i : Intent)
    (hi : IntentRepo.GetByID db intentID = some i) :
    (IntentResolver.Execute db intentID curHash postHash now
        = .error (.engine errLeaseExpired) ↔ i.leaseUntil < now)
    ∧ (¬ i.leaseUntil < now →
        (IntentResolver.Execute db intentID curHash postHash now
          = .error (.engine errIntentHashMismatch) ↔ i.preHash ≠ curHash))
    ∧ (∀ db0 intent d db', 0 < d →
        IntentResolver.AcquireLock db0 intent 0 now = .ok db' →
        IntentResolver.Execute db' intent.intentID curHash postHash (now + d)
          = .error (.engine errLeaseExpired)) := by
  have hfind : db.intents.find? (fun o => o.intentID == intentID) = some i := hi
  have hany : db.intents.any (fun o => o.intentID == intentID) = true :=
    List.any_eq_true.mpr ⟨i, List.mem_of_find?_eq_some hfind,
      List.find?_some (p := fun o : Intent => o.intentID == intentID)
        (a := i) hfind⟩
  refine ⟨?_, ?_, ?_⟩
  · by_cases hlt : i.leaseUntil < now
    · simp [IntentResolver.Execute, hi, hlt]
    · by_cases hp : i.preHash = curHash
      · simp [IntentResolver.Execute, hi, hlt, hp, IntentRepo.MarkDoneTx, hany,
          except_ok_bind]
      · simp [IntentResolver.Execute, hi, hlt, hp, errLeaseExpired,
          errIntentHashMismatch]
  · intro hlt
    by_cases hp : i.preHash = curHash
    · simp [IntentResolver.Execute, hi, hlt, hp, IntentRepo.MarkDoneTx, hany,
        except_ok_bind]
    · simp [IntentResolver.Execute, hi, hlt, hp]
  · intro db0 intent d db' hd hacq
    unfold IntentResolver.AcquireLock at hacq
    by_cases hact :
        0 < (IntentRepo.FindActiveByFile db0 intent.taskID intent.targetFile).length
    · rw [if_pos hact] at hacq; cases hacq
    · rw [if_neg hact] at hacq
      cases hww : WorkerRepo.GetByID db0 intent.workerID with
      | none => rw [hww] at hacq; cases hacq
      | some w =>
        rw [hww] at hacq
        simp only at hacq
        by_cases hown : ownsFile w.fileOwnership intent.targetFile = true
        · rw [if_neg (by simp [hown])] at hacq
          obtain rfl : _ = db' := Except.ok.inj hacq
          obtain ⟨j, hj, _, hjl, _⟩ := intentGetByID_upsert db0
            { intent with status := "pending", leaseUntil := now + 0 }
          have hjid : IntentRepo.GetByID
              (AuditRepo.Record (IntentRepo.UpsertTx db0
                { intent with status := "pending", leaseUntil := now + 0 })
                { id := s!"aud-{now}", taskID := intent.taskID
                  category := "intent", actor := intent.workerID
                  action := "lock_acquired", requestJSON := ""
                  decisionJSON := "", severity := "info", createdAt := now })
              intent.intentID = some j := hj
          have hexp : j.leaseUntil < now + d := by
            rw [hjl]; simpa using hd
          simp only [add_zero] at hjid
          simp [IntentResolver.Execute, hjid, hexp]
        · rw [if_pos (by simp [hown])] at hacq; cases hacq

/-- A pending intent on `main.go` whose lease runs out at time 50. -/
def pendingIntent : Intent :=
  { mainIntent with status := "pending", leaseUntil := 50 }

/-- A store holding only `pendingIntent`. -/
def intentDB : DB := { DB.empty with intents := [pendingIntent] }

/-- Witness for C7: at time 100 the lease (until 50) has expired; at
time 10 with a wrong current hash the pre-hash check fails; and an
intent acquired with lease 0 at time 1000 fails `lease_expired` when
executed at time 1000 + 5. -/
theorem execute_lease_hash_witness :
    IntentResolver.Execute intentDB "i-1" "h0" "h1" 100
      = .error (.engine errLeaseExpired)
    ∧ IntentResolver.Execute intentDB "i-1" "bad" "h1" 10
      = .error (.engine errIntentHashMismatch)
    ∧ ∃ db', IntentResolver.AcquireLock lockFreeDB mainIntent 0 1000 = .ok db'
      ∧ IntentResolver.Execute db' "i-1" "h0" "h1" (1000 + 5)
        = .error (.engine errLeaseExpired) := by
  refine ⟨?_, ?_, ?_⟩
  · exact (execute_lease_hash intentDB "i-1" "h0" "h1" 100 pendingIntent
      rfl).1.mpr (by decide)
  · exact ((execute_lease_hash intentDB "i-1" "bad" "h1" 10 pendingIntent
      rfl).2.1 (by decide)).mpr (by decide)
  · refine ⟨_, rfl, ?_⟩
    exact (execute_lease_hash intentDB "i-1" "h0" "h1" 1000 pendingIntent
      rfl).2.2 lockFreeDB mainIntent 5 _ (by norm_num) rfl

/-! ### Consensus (C8, C10) -/

/-- A card scoring the same value on all five dimensions, as the
consensus scenario's `makeCard` builds. -/
def cardAll (reviewer : String) (n : Int) (verdict : String) : ScoreCard :=
  { reviewID := "rev-test", reviewer := reviewer
    scores := { correctness := n, security := n, maintainability := n
                cost := n, deliveryRisk := n }
    issues := [], alternatives := [], verdict := verdict }

/-- Spec-side formula: `Σ (avg · w)` over the cards. -/
def consensusWeightedSum (weights : List (String × ℚ)) (cards : List ScoreCard) : ℚ :=
  (cards.map (fun c => cardAvg c * reviewerWeight weights c.reviewer)).sum

/-- Spec-side formula: `Σ w` over the cards. -/
def consensusTotalWeight (weights : List (String × ℚ)) (cards : List ScoreCard) : ℚ :=
  (cards.map (fun c => reviewerWeight weights c.reviewer)).sum

/-- Projection of the scenario card builder. -/
theorem cardAll_reviewer (r : String) (n : Int) (v : String) :
    (cardAll r n v).reviewer = r := rfl

/-- A card with identical scores averages to that score. -/
theorem cardAvg_cardAll (r : String) (n : Int) (v : String) :
    cardAvg (cardAll r n v) = (n : ℚ) := by
  unfold cardAvg cardAll
  push_cast
  ring

/-- The accumulator loop of `ConsensusEngine.Evaluate` computes the two
spec-side sums. -/
theorem consensus_fold (weights : List (String × ℚ)) (cards : List ScoreCard)
    (a b : ℚ) :
    cards.foldl (fun (acc : ℚ × ℚ) card =>
        let w := reviewerWeight weights card.reviewer
        (acc.1 + cardAvg card * w, acc.2 + w)) (a, b)
      = (a + consensusWeightedSum weights cards,
         b + consensusTotalWeight weights cards) := by
  induction cards generalizing a b with
  | nil => simp [consensusWeightedSum, consensusTotalWeight]
  | cons hd tl ih =>
    simp only [List.foldl_cons, ih, consensusWeightedSum, consensusTotalWeight,
      List.map_cons, List.sum_cons]
    rw [Prod.mk.injEq]
    exact ⟨by ring, by ring⟩

/-- Validation of a list succeeds when every card validates. -/
theorem validateAll_ok (cards : List ScoreCard)
    (h : ∀ c ∈ cards, SchemaValidator.Validate c = .ok ()) :
    validateAll cards = .ok () := by
  induction cards with
  | nil => rfl
  | cons hd tl ih =>
    unfold validateAll
    rw [h hd (List.mem_cons_self hd tl), except_ok_bind]
    exact ih (fun c hc => h c (List.mem_cons_of_mem hd hc))

/-- C8: for a non-empty list of valid cards, `Evaluate` returns the
weighted average of the per-card 5-dimension averages (unknown
reviewers weighing 1.0), with verdict `pass` at 4.0 and
`conditional_pass` at 3.0; the empty list yields `consensus_no_cards`;
and the three all-5/all-3/all-4 cards under the default weights score
exactly 4.2 with verdict `pass`. -/
theorem consensus_evaluate_formula (weights : List (String × ℚ))
    (cards : List ScoreCard) (hne : cards ≠ [])
    (hval : ∀ c ∈ cards, SchemaValidator.Validate c = .ok ()) :
    ConsensusEngine.Evaluate weights cards = .ok
      { weightedScore :=
          consensusWeightedSum weights cards / consensusTotalWeight weights cards
        finalVerdict :=
          if 4 ≤ consensusWeightedSum weights cards
              / consensusTotalWeight weights cards then "pass"
          else if 3 ≤ consensusWeightedSum weights cards
              / consensusTotalWeight weights cards then "conditional_pass"
          else "fail"
        blocking := false
        blockReasons := [] }
    ∧ ConsensusEngine.Evaluate weights [] = .error (.engine errConsensusNoCards)
    ∧ (ConsensusEngine.Evaluate DefaultWeights
        [cardAll "primary" 5 "pass", cardAll "secondary" 3 "conditional_pass",
         cardAll "lead" 4 "pass"]).map
        (fun r => (r.weightedScore, r.finalVerdict)) = .ok (21/5, "pass") := by
  refine ⟨?_, rfl, ?_⟩
  · cases cards with
    | nil => exact absurd rfl hne
    | cons hd tl =>
      unfold ConsensusEngine.Evaluate
      rw [validateAll_ok _ hval, except_ok_bind]
      simp only [consensus_fold weights (hd :: tl) 0 0, zero_add]
      rfl
  · have hv : ∀ c ∈ [cardAll "primary" 5 "pass",
        cardAll "secondary" 3 "conditional_pass", cardAll "lead" 4 "pass"],
        SchemaValidator.Validate c = .ok () := by
      intro c hc
      simp only [List.mem_cons, List.not_mem_nil, or_false] at hc
      rcases hc with rfl | rfl | rfl <;> rfl
    unfold ConsensusEngine.Evaluate
    rw [validateAll_ok _ hv, except_ok_bind]
    simp only [consensus_fold DefaultWeights _ 0 0, zero_add]
    have hws : consensusWeightedSum DefaultWeights
        [cardAll "primary" 5 "pass", cardAll "secondary" 3 "conditional_pass",
         cardAll "lead" 4 "pass"] = 21/5 := by
      simp only [consensusWeightedSum, List.map_cons, List.map_nil,
        List.sum_cons, List.sum_nil, cardAll_reviewer, cardAvg_cardAll,
        show reviewerWeight DefaultWeights "primary" = 9/20 from rfl,
        show reviewerWeight DefaultWeights "secondary" = 1/4 from rfl,
        show reviewerWeight DefaultWeights "lead" = 3/10 from rfl]
      norm_num
    have htw : consensusTotalWeight DefaultWeights
        [cardAll "primary" 5 "pass", cardAll "secondary" 3 "conditional_pass",
         cardAll "lead" 4 "pass"] = 1 := by
      simp only [consensusTotalWeight, List.map_cons, List.map_nil,
        List.sum_cons, List.sum_nil, cardAll_reviewer,
        show reviewerWeight DefaultWeights "primary" = 9/20 from rfl,
        show reviewerWeight DefaultWeights "secondary" = 1/4 from rfl,
        show reviewerWeight DefaultWeights "lead" = 3/10 from rfl]
      norm_num
    rw [hws, htw]
    simp only [Except.map]
    norm_num

/-- Witness for C8: a single all-4 card from `primary` under the
default weights evaluates to weighted score 4 and verdict `pass`. -/
theorem consensus_evaluate_formula_witness :
    ConsensusEngine.Evaluate DefaultWeights [cardAll "primary" 4 "pass"]
      = .ok { weightedScore := 4, finalVerdict := "pass", blocking := false
              blockReasons := [] } := by
  have h := (consensus_evaluate_formula DefaultWeights
    [cardAll "primary" 4 "pass"] (by simp)
    (by intro c hc; simp only [List.mem_cons, List.not_mem_nil, or_false] at hc
        subst hc; rfl)).1
  have hws : consensusWeightedSum DefaultWeights [cardAll "primary" 4 "pass"]
      = 9/5 := by
    simp only [consensusWeightedSum, List.map_cons, List.map_nil,
      List.sum_cons, List.sum_nil, cardAll_reviewer, cardAvg_cardAll,
      show reviewerWeight DefaultWeights "primary" = 9/20 from rfl]
    norm_num
  have htw : consensusTotalWeight DefaultWeights [cardAll "primary" 4 "pass"]
      = 9/20 := by
    simp only [consensusTotalWeight, List.map_cons, List.map_nil,
      List.sum_cons, List.sum_nil, cardAll_reviewer,
      show reviewerWeight DefaultWeights "primary" = 9/20 from rfl]
    norm_num
  rw [hws, htw] at h
  norm_num at h
  exact h

/-- C10: every successful consensus evaluation returns `Blocking =
false` and no block reasons, whatever the cards contain — blocker
detection (`BlockerChecker.Check`) never influences the result. -/
theorem consensus_blocking_false (weights : List (String × ℚ))
    (cards : List ScoreCard) (r : ConsensusResult)
    (h : ConsensusEngine.Evaluate weights cards = .ok r) :
    r.blocking = false ∧ r.blockReasons = [] := by
  unfold ConsensusEngine.Evaluate at h
  by_cases hlen : (cards.length == 0) = true
  · rw [if_pos hlen] at h; cases h
  · rw [if_neg hlen] at h
    cases hv : validateAll cards with
    | error e => rw [hv, except_error_bind] at h; cases h
    | ok u =>
      rw [hv, except_ok_bind] at h
      obtain rfl : _ = r := Except.ok.inj h
      exact ⟨rfl, rfl⟩

/-- A schema-valid card that is heavy with blockers: security score 1
and a P0 issue. -/
def blockerCard : ScoreCard :=
  { reviewID := "rev-1", reviewer := "primary"
    scores := { correctness := 4, security := 1, maintainability := 4
                cost := 4, deliveryRisk := 4 }
    issues := [{ severity := "P0", location := "auth.go:42"
                 description := "credentials leaked", suggestion := ""
                 evidence := "" }]
    alternatives := [], verdict := "pass" }

/-- Witness for C10: `BlockerChecker.Check` flags `blockerCard`, yet
the consensus result for it still carries `Blocking = false` and no
reasons. -/
theorem consensus_blocking_false_witness :
    (BlockerChecker.Check [blockerCard]).1 = true
    ∧ ∃ r, ConsensusEngine.Evaluate DefaultWeights [blockerCard] = .ok r
      ∧ r.blocking = false ∧ r.blockReasons = [] := by
  refine ⟨by decide, ?_⟩
  obtain ⟨hb, hr⟩ := consensus_blocking_false DefaultWeights [blockerCard] _ rfl
  exact ⟨_, rfl, hb, hr⟩

/-! ### Budget persistence (C9) -/

/-- For the state loaded by the governor (same task id and version as
the first matching row), the optimistic-lock update hits and the
updated first row carries the new fields, version incremented. -/
theorem updateTaskRows_find (l : List FlowState) (tid : String)
    (s s' : FlowState) (hfind : l.find? (fun t => t.taskID == tid) = some s)
    (hid : s'.taskID = s.taskID) (hver : s'.stateVersion = s.stateVersion) :
    l.any (fun t =>
        t.taskID == s'.taskID && t.stateVersion == s'.stateVersion) = true
    ∧ (updateTaskRows l s').find? (fun t => t.taskID == tid)
      = some { s' with stateVersion := s'.stateVersion + 1 } := by
  induction l with
  | nil => cases hfind
  | cons hd tl ih =>
    by_cases hh : (hd.taskID == tid) = true
    · rw [List.find?_cons_of_pos (p := fun t : FlowState => t.taskID == tid) _ hh]
        at hfind
      obtain rfl : hd = s := Option.some.inj hfind
      have hhit : (hd.taskID == s'.taskID
          && hd.stateVersion == s'.stateVersion) = true := by
        rw [hid, hver]; simp
      constructor
      · exact List.any_eq_true.mpr ⟨hd, List.mem_cons_self hd tl, hhit⟩
      · unfold updateTaskRows
        rw [List.map_cons, if_pos hhit]
        rw [List.find?_cons_of_pos (p := fun t : FlowState => t.taskID == tid) _
          (by simpa [hver, hid] using hh)]
        rw [hver]
    · rw [List.find?_cons_of_neg (p := fun t : FlowState => t.taskID == tid) _ hh]
        at hfind
      obtain ⟨hany, hfind'⟩ := ih hfind
      have hsid : s.taskID = tid := of_decide_eq_true
        (List.find?_some (p := fun t : FlowState => t.taskID == tid) (a := s) hfind)
      have hmiss : (hd.taskID == s'.taskID
          && hd.stateVersion == s'.stateVersion) = false := by
        have : (hd.taskID == s'.taskID) = false := by
          rw [hid, hsid]
          exact Bool.eq_false_iff.mpr (fun hc => hh hc)
        simp [this]
      constructor
      · rw [List.any_cons, hmiss]
        simpa using hany
      · unfold updateTaskRows
        rw [List.map_cons, if_neg (by simp [hmiss])]
        rw [List.find?_cons_of_neg (p := fun t : FlowState => t.taskID == tid) _ hh]
        exact hfind'

/-- The persisted row after a successful `RecordUsage`: usage
incremented by the delta amount, version bumped by the optimistic-lock
update. -/
def bumpUsage (s : FlowState) (amt : ℚ) : FlowState :=
  { s with budgetUsedUSD := s.budgetUsedUSD + amt, stateVersion := s.stateVersion + 1 }

/-- The in-memory state the governor builds before persisting:
`state.BudgetUsedUSD += delta.AmountUSD`. -/
def addUsage (s : FlowState) (amt : ℚ) : FlowState :=
  { s with budgetUsedUSD := s.budgetUsedUSD + amt }

/-- `RecordUsage` on an existing task: the increment is persisted under
the optimistic lock with no clamping, and the returned action is the
evaluation of the incremented usage against the cap. -/
theorem recordUsage_ok (db : DB) (taskID : String) (delta : CostDelta)
    (s : FlowState) (hs : TaskRepo.GetByID db taskID = some s) :
    ∃ db', NewBudgetGovernor.RecordUsage db taskID delta
      = .ok (NewBudgetGovernor.evaluate (s.budgetUsedUSD + delta.amountUSD)
          s.budgetCapUSD, db')
      ∧ TaskRepo.GetByID db' taskID = some (bumpUsage s delta.amountUSD) := by
  have hfind : db.tasks.find? (fun t => t.taskID == taskID) = some s := hs
  obtain ⟨hany, hfind'⟩ := updateTaskRows_find db.tasks taskID s
    (addUsage s delta.amountUSD) hfind rfl rfl
  simp only [addUsage] at hany hfind'
  refine ⟨{ db with
      tasks := updateTaskRows db.tasks (addUsage s delta.amountUSD) }, ?_, ?_⟩
  · unfold BudgetGovernor.RecordUsage
    rw [hs]
    simp only [TaskRepo.UpdateStateTx, hany, if_true, except_ok_bind, addUsage]
  · show (updateTaskRows db.tasks (addUsage s delta.amountUSD)).find?
      (fun t => t.taskID == taskID) = _
    simp only [addUsage]
    exact hfind'

/-- A task at 8 of its 10-dollar cap. -/
def overBudgetTask : FlowState :=
  { taskID := "t2", currentPhase := .C, status := .statusRunning
    stateVersion := 1, round := 0, budgetUsedUSD := 8, budgetCapUSD := 10
    lastEventSeq := 1, updatedAtUnix := 0 }

/-- A store holding `overBudgetTask`. -/
def overBudgetDB : DB := { DB.empty with tasks := [overBudgetTask] }

/-- A five-dollar cost delta. -/
def overDelta : CostDelta :=
  { inputTokens := 0, outputTokens := 0, amountUSD := 5
    provider := "claude", phase := "C", createdAt := 0 }

/-- C9: a successful `RecordUsage` persists `budgetUsed + amountUSD`
with no clamping at the cap — the increment commits even when the
returned action is `halt`, so the persisted usage can strictly exceed
the cap, as recording a 5-dollar delta on a task at 8 of 10 shows. -/
theorem recordUsage_unclamped (db : DB) (taskID : String) (delta : CostDelta)
    (s : FlowState) (hs : TaskRepo.GetByID db taskID = some s) :
    (∃ db', NewBudgetGovernor.RecordUsage db taskID delta
      = .ok (NewBudgetGovernor.evaluate (s.budgetUsedUSD + delta.amountUSD)
          s.budgetCapUSD, db')
      ∧ TaskRepo.GetByID db' taskID = some (bumpUsage s delta.amountUSD))
    ∧ (∃ db2, NewBudgetGovernor.RecordUsage overBudgetDB "t2" overDelta
        = .ok (.costHalt, db2)
      ∧ (TaskRepo.GetByID db2 "t2").map
          (fun t => decide (t.budgetCapUSD < t.budgetUsedUSD)) = some true) := by
  refine ⟨recordUsage_ok db taskID delta s hs, ?_⟩
  obtain ⟨db2, heq, hget⟩ := recordUsage_ok overBudgetDB "t2" overDelta
    overBudgetTask rfl
  have hhalt : NewBudgetGovernor.evaluate
      (overBudgetTask.budgetUsedUSD + overDelta.amountUSD)
      overBudgetTask.budgetCapUSD = .costHalt := by
    show NewBudgetGovernor.evaluate (8 + 5) 10 = .costHalt
    norm_num [NewBudgetGovernor, BudgetGovernor.evaluate]
  rw [hhalt] at heq
  refine ⟨db2, heq, ?_⟩
  rw [hget]
  have hlt : (bumpUsage overBudgetTask overDelta.amountUSD).budgetCapUSD
      < (bumpUsage overBudgetTask overDelta.amountUSD).budgetUsedUSD := by
    norm_num [overBudgetTask, overDelta, bumpUsage]
  simp [hlt]

/-- Witness for C9 at the concrete over-budget store: the action is
`halt` and the persisted usage exceeds the cap. -/
theorem recordUsage_unclamped_witness :
    ∃ db2, NewBudgetGovernor.RecordUsage overBudgetDB "t2" overDelta
      = .ok (.costHalt, db2)
    ∧ (TaskRepo.GetByID db2 "t2").map
        (fun t => decide (t.budgetCapUSD < t.budgetUsedUSD)) = some true :=
  (recordUsage_unclamped overBudgetDB "t2" overDelta overBudgetTask rfl).2

end ThreeBody
